import Mathlib

/-!
Verification of the mork-converter logical database builder
(`ply/morkdb.py`) and the signed-32-bit field converter
(`src/MorkDB/filters/conversions.py`), as a shallow embedding.

Strings are embedded as `String` / `List Char`; Python dictionaries as
functions into `Option`; Python exceptions (`KeyError`, `AssertionError`)
as `Option.none` propagated through `Option.bind`.
-/

namespace Mork

/-! ## Escape decoder (`MorkDatabase._escape` / `_translateEscape` / `_unescape`) -/

/-- Character class `[0-9a-fA-F]` of the regex `\$[0-9a-fA-F]{2}|\\\r\n|\\.`. -/
def isHexD (c : Char) : Bool :=
  (('0' ≤ c) && (c ≤ '9')) || (('a' ≤ c) && (c ≤ 'f')) || (('A' ≤ c) && (c ≤ 'F'))

/-- Numeric value of a hex digit character. -/
def hexVal (c : Char) : Nat :=
  if ('0' ≤ c) && (c ≤ '9') then c.toNat - '0'.toNat
  else if ('a' ≤ c) && (c ≤ 'f') then c.toNat - 'a'.toNat + 10
  else if ('A' ≤ c) && (c ≤ 'F') then c.toNat - 'A'.toNat + 10
  else 0

/-- Embedding of `MorkDatabase._unescapeMap`, keyed by the character after the backslash:
`\)`, `\\`, `\$` map to the escaped character, `\` + newline maps to the
empty string (line continuation); anything else is absent (Python raises
`KeyError` on lookup).  The `\` + CR LF key is handled before this map is
consulted (see `unescape`). -/
def escMap (c : Char) : Option (List Char) :=
  if c = ')' then some [')']
  else if c = '\\' then some ['\\']
  else if c = '$' then some ['$']
  else if c = '\n' then some []
  else none

/-- Embedding of `MorkDatabase._unescape`: left-to-right scan of
`re.compile(r'\$[0-9a-fA-F]{2}|\\\r\n|\\.', re.DOTALL)` with
`_translateEscape` substituting each match.  A `$` followed by two hex
digits becomes the byte of that value; backslash + CR LF and
backslash + LF vanish; any other backslash + character is looked up in
`escMap`, whose miss is a `KeyError` (`none`).  Unmatched characters pass
through. -/
def unescape : List Char → Option (List Char)
  | [] => some []
  | '$' :: a :: b :: rest =>
    if isHexD a && isHexD b then
      (unescape rest).map (fun l => Char.ofNat (16 * hexVal a + hexVal b) :: l)
    else
      (unescape (a :: b :: rest)).map (fun l => '$' :: l)
  | '\\' :: '\r' :: '\n' :: rest => unescape rest
  | '\\' :: c :: rest => (escMap c).bind (fun s => (unescape rest).map (fun l => s ++ l))
  | c :: rest => (unescape rest).map (fun l => c :: l)

/-- String-level wrapper of `unescape`. -/
def unescapeStr (s : String) : Option String :=
  (unescape s.data).map (fun l => String.mk l)

/-! ## Syntax-tree model

Modelled from the spec: the `morkast` module (the external grammar's
syntax-tree classes) is not part of the two source files; per the external
interface, a symbolic reference carries an alias id and an optional
(literal) scope, an identifier carries a raw id and an optional scope that
is either a literal namespace string or a symbolic reference, and cells
carry a column and a value that are each either literal text or a
symbolic reference, plus an optional cut marker. -/

/-- Modelled from the spec: `morkast.ObjectRef` — a symbolic reference:
alias id plus optional literal scope. -/
structure MorkRef where
  oid : String
  scope : Option String
deriving DecidableEq

/-- Modelled from the spec: scope of a `morkast.ObjectId` — either a
literal namespace string or a symbolic reference. -/
inductive IdScope where
  | lit (s : String)
  | ref (r : MorkRef)
deriving DecidableEq

/-- Modelled from the spec: `morkast.ObjectId` — raw id plus optional
scope. -/
structure MorkId where
  objectid : String
  scope : Option IdScope
deriving DecidableEq

/-- Modelled from the spec: a cell's column or value — literal text or a
symbolic reference. -/
inductive CellPart where
  | lit (s : String)
  | ref (r : MorkRef)
deriving DecidableEq

/-- Modelled from the spec: `morkast.Cell` — column, value, cut marker. -/
structure Cell where
  column : CellPart
  value : CellPart
  cut : Bool
deriving DecidableEq

/-- Modelled from the spec: a cell of a Dict item; the dictionary builder
treats its column and value as plain strings. -/
structure DictCell where
  column : String
  value : String
  cut : Bool
deriving DecidableEq

/-- Modelled from the spec: the at-most-one meta-dict of a Dict item,
holding (column, value) string cells. -/
structure MetaDict where
  cells : List (String × String)
deriving DecidableEq

/-- Modelled from the spec: `morkast.Dict` — cells plus meta-dicts. -/
structure DictAst where
  cells : List DictCell
  meta : List MetaDict
deriving DecidableEq

/-- Modelled from the spec: `morkast.Row` — identifier, cells, markers. -/
structure RowAst where
  rowid : MorkId
  cells : List Cell
  trunc : Bool
  cut : Bool
  meta : List MetaDict
deriving DecidableEq

/-- Modelled from the spec: a Table body entry — a bare row identifier or
an inline Row. -/
inductive TableItem where
  | rowRef (i : MorkId)
  | rowNode (r : RowAst)
deriving DecidableEq

/-- Modelled from the spec: `morkast.Table` — identifier, body entries,
markers. -/
structure TableAst where
  tableid : MorkId
  rows : List TableItem
  trunc : Bool
  meta : List MetaDict
deriving DecidableEq

/-- Modelled from the spec: a top-level item of `morkast.Database` —
Dict, Row, Table, or some other (skipped) kind. -/
inductive Item where
  | dict (d : DictAst)
  | row (r : RowAst)
  | table (t : TableAst)
  | other
deriving DecidableEq

/-! ## Dictionaries, stores and database state -/

/-- A Python dict of strings, as a partial function; `none` = key absent
(`KeyError` on subscript). -/
def MDict : Type := String → Option String

/-- Python `d[k] = v` on a string dict. -/
def insertD (d : MDict) (k v : String) : MDict :=
  fun q => if q = k then some v else d q

/-- The empty dict. -/
def emptyD : MDict := fun _ => none

/-- Uppercase hex digit character of `n < 16` (as produced by `'%X'`). -/
def hexDigitUp (n : Nat) : Char :=
  if n < 10 then Char.ofNat (48 + n) else Char.ofNat (55 + n)

/-- Python `'%X' % i` for `i < 256`: uppercase hex, no zero padding. -/
def natToHexUp (i : Nat) : String :=
  if i < 16 then String.mk [hexDigitUp i]
  else String.mk [hexDigitUp (i / 16), hexDigitUp (i % 16)]

/-- Embedding of `_MorkDict.__init__`: `for i in xrange(0x80): self['%X' % i] = chr(i)`. -/
def seedDict : MDict :=
  (List.range 0x80).foldl (fun d i => insertD d (natToHexUp i) (String.mk [Char.ofNat i])) emptyD

/-- An object store (`_MorkStore`): `(namespace, id)`-keyed partial map.
`__getitem__` misses are `KeyError` (`none`); `__setitem__` overwrites. -/
def Store (α : Type) : Type := String × String → Option α

/-- Embedding of `_MorkStore.__setitem__`. -/
def storeSet {α : Type} (s : Store α) (k : String × String) (v : α) : Store α :=
  fun q => if q = k then some v else s q

/-- The empty store. -/
def emptyStore {α : Type} : Store α := fun _ => none

/-- A row (`_MorkRow`): column → value dict. -/
def MorkRow : Type := MDict

/-- A table (`_MorkTable`): the ordered rows it holds. -/
def MorkTable : Type := List MorkRow

/-- The database state: `self.dicts`, `self.rows`, `self.tables` of
`MorkDatabase`. -/
structure MorkState where
  dicts : String → Option MDict
  rows : Store MorkRow
  tables : Store MorkTable

/-- Python `d[k] = v` on the namespace → dict map. -/
def setDict (m : String → Option MDict) (k : String) (v : MDict) : String → Option MDict :=
  fun q => if q = k then some v else m q

/-- Embedding of `MorkDatabase.__init__`: empty stores; dictionaries `"a"` and `"c"`
pre-seeded with `seedDict`. -/
def initState : MorkState :=
  { dicts := setDict (setDict (fun _ => none) "a" seedDict) "c" seedDict
    rows := emptyStore
    tables := emptyStore }

/-! ## Reference resolver -/

/-- Embedding of `MorkDatabase._dictDeref`: resolve a symbolic reference against the
dictionary store, the reference's own namespace defaulting to
`defaultNamespace`; a missing namespace or alias is a `KeyError`. -/
def dictDeref (st : MorkState) (r : MorkRef) (defaultNamespace : String) : Option String :=
  (st.dicts (r.scope.getD defaultNamespace)).bind (fun d => d r.oid)

/-- Embedding of `MorkDatabase._dissectId`: return the raw id together with the
namespace — the literal scope, the dereferenced scope (default dictionary
`"c"`), or `none` when absent. -/
def dissectId (st : MorkState) (i : MorkId) : Option (String × Option String) :=
  match i.scope with
  | none => some (i.objectid, none)
  | some (IdScope.lit s) => some (i.objectid, some s)
  | some (IdScope.ref r) => (dictDeref st r "c").map (fun v => (i.objectid, some v))

/-- Embedding of `MorkDatabase._inflateCell`: a reference column dereferences with
default namespace `"c"`, a literal column is used verbatim; a reference
value dereferences with default namespace `"a"`, a literal value is
escape-decoded. -/
def inflateCell (st : MorkState) (c : Cell) : Option (String × String) :=
  (match c.column with
   | CellPart.lit s => some s
   | CellPart.ref r => dictDeref st r "c").bind (fun col =>
  (match c.value with
   | CellPart.lit s => unescapeStr s
   | CellPart.ref r => dictDeref st r "a").map (fun v => (col, v)))

/-! ## Dictionary builder (`_MorkDict.fromAst`) -/

/-- The cell loop of `_MorkDict.fromAst`: starting from the given
accumulator, store each cell's escape-decoded value under its column
(later cells overwrite earlier ones); a decode failure aborts. -/
def dictCellsOf : List DictCell → MDict → Option MDict
  | [], acc => some acc
  | c :: rest, acc =>
    (unescapeStr c.value).bind (fun v => dictCellsOf rest (insertD acc c.column v))

/-- The cells table a Dict item builds: a freshly seeded `_MorkDict`
overlaid with the item's decoded cells. -/
def dictCellsFun (d : DictAst) : Option MDict :=
  dictCellsOf d.cells seedDict

/-- The namespace a Dict item targets: `"a"` unless the (at most one —
otherwise `AssertionError`) meta-dict has a cell with column `"a"`, whose
raw value then names the namespace. -/
def dictNamespaceOf (d : DictAst) : Option String :=
  if d.meta.length ≤ 1 then
    some (match d.meta with
          | [] => "a"
          | m :: _ => ((m.cells.find? (fun p => p.1 = "a")).map Prod.snd).getD "a")
  else none

/-- Python `existing.update(cells)`: every key of `cells` wins, other keys
keep `existing`'s value. -/
def overlayD (existing cells : MDict) : MDict :=
  fun k => (cells k).orElse (fun _ => existing k)

/-- Embedding of `_MorkDict.fromAst`: build the cells table, find the namespace, then
either install the table as a new namespace or update the existing one. -/
def MorkDict.fromAst (d : DictAst) (st : MorkState) : Option MorkState :=
  (dictCellsFun d).bind (fun cells =>
  (dictNamespaceOf d).map (fun ns =>
    match st.dicts ns with
    | none => { st with dicts := setDict st.dicts ns cells }
    | some existing => { st with dicts := setDict st.dicts ns (overlayD existing cells) }))

/-! ## Row builder (`_MorkRow.fromAst`) -/

/-- The cell loop of `_MorkRow.fromAst`: inflate each cell and store it
under its resolved column; a resolution failure aborts. -/
def rowCellsOf (st : MorkState) : List Cell → MorkRow → Option MorkRow
  | [], acc => some acc
  | c :: rest, acc =>
    (inflateCell st c).bind (fun p => rowCellsOf st rest (insertD acc p.1 p.2))

/-- Embedding of `_MorkRow.fromAst`: build the row from the item's cells alone, resolve
the row identifier (falling back to `defaultNamespace`; a still-absent
namespace is an `AssertionError`), then store the row at
`(namespace, id)`, replacing any prior row there.  Returns the row and the
updated state. -/
def MorkRow.fromAst (r : RowAst) (st : MorkState) (defaultNamespace : Option String) :
    Option (MorkRow × MorkState) :=
  (rowCellsOf st r.cells emptyD).bind (fun row =>
  (dissectId st r.rowid).bind (fun p =>
  ((p.2).orElse (fun _ => defaultNamespace)).map (fun ns =>
    (row, { st with rows := storeSet st.rows (ns, p.1) row }))))

/-! ## Table builder (`_MorkTable.fromAst`) -/

/-- The row loop of `_MorkTable.fromAst`: a bare identifier resolves (its
namespace defaulting to the table's) and must already be in the row store
(`KeyError` otherwise); an inline Row runs the row builder with the
table's namespace as default, updating the state. -/
def tableRowsOf (ns : String) : List TableItem → List MorkRow → MorkState →
    Option (List MorkRow × MorkState)
  | [], acc, st => some (acc, st)
  | TableItem.rowRef i :: rest, acc, st =>
    (dissectId st i).bind (fun p =>
      (st.rows (p.2.getD ns, p.1)).bind (fun row =>
        tableRowsOf ns rest (acc ++ [row]) st))
  | TableItem.rowNode r :: rest, acc, st =>
    (MorkRow.fromAst r st (some ns)).bind (fun q =>
      tableRowsOf ns rest (acc ++ [q.1]) q.2)

/-- Embedding of `_MorkTable.fromAst`: resolve the table identifier (an absent
namespace is an `AssertionError`), collect the rows, then store the table
at `(namespace, id)`. -/
def MorkTable.fromAst (t : TableAst) (st : MorkState) : Option MorkState :=
  (dissectId st t.tableid).bind (fun p =>
  (p.2).bind (fun ns =>
  (tableRowsOf ns t.rows [] st).map (fun q =>
    { q.2 with tables := storeSet q.2.tables (ns, p.1) q.1 })))

/-! ## Database builder (`MorkDatabase.fromAst`) -/

/-- One step of the builder loop: dispatch on the item kind; unknown
kinds are skipped with a warning. -/
def processItem (it : Item) (st : MorkState) : Option MorkState :=
  match it with
  | Item.dict d => MorkDict.fromAst d st
  | Item.row r => (MorkRow.fromAst r st none).map Prod.snd
  | Item.table t => MorkTable.fromAst t st
  | Item.other => some st

/-- The builder loop over the top-level items, in order; any failure
aborts the whole build. -/
def buildItems : List Item → MorkState → Option MorkState
  | [], st => some st
  | it :: rest, st => (processItem it st).bind (buildItems rest)

/-- Embedding of `MorkDatabase.fromAst`: process all items starting from the fresh
pre-seeded state. -/
def MorkDatabase.fromAst (items : List Item) : Option MorkState :=
  buildItems items initState

/-! ## Field converter `_SignedInt32` (`filters/conversions.py`) -/

/-- Python `int(value, 16)` on a hexadecimal field value: a nonempty string of
hex digits; anything else is a `ValueError` (`none`).  (Sign, whitespace
and prefix forms of Python's `int` are outside the hexadecimal field
values considered here.) -/
def parseHexAux : List Char → Nat → Option Nat
  | [], acc => some acc
  | c :: rest, acc => if isHexD c then parseHexAux rest (16 * acc + hexVal c) else none

/-- String-level hexadecimal parse, `_Int._to_int` with base 16. -/
def parseHexStr (s : String) : Option Nat :=
  match s.data with
  | [] => none
  | l => parseHexAux l 0

/-- Embedding of `_SignedInt32.convert` as instantiated by
`_signed_int32_converter = _SignedInt32(base=16)`: with `no_base` the
value passes through; otherwise parse as hex, `assert` the value fits in
32 bits (failure = `none`), reinterpret values above `0x7fffffff` as
negative two's-complement, and render in decimal. -/
def signedInt32Convert (noBase : Bool) (value : String) : Option String :=
  if noBase then some value
  else
    (parseHexStr value).bind (fun ival =>
      if ival ≤ 0xffffffff then
        some (toString (if 0x7fffffff < ival then (ival : Int) - 0x100000000 else (ival : Int)))
      else none)

/-! ## Concrete instances used below -/

/-- A state whose dictionary `"c"` additionally maps alias `"5"` to
`"history"`. -/
def historyState : MorkState :=
  { initState with dicts := setDict initState.dicts "c" (insertD seedDict "5" "history") }

/-- A row with the single column `"b"` valued `"1"`. -/
def prevRow : MorkRow := insertD emptyD "b" "1"

/-- A state already holding `prevRow` at `("n", "1")`, as left behind by an
earlier Row item. -/
def prevRowState : MorkState :=
  { initState with rows := storeSet initState.rows ("n", "1") prevRow }

/-- A later Row item for the same key `("n", "1")`, with the single cell
column `"c"` valued `"2"`. -/
def laterRowAst : RowAst :=
  { rowid := { objectid := "1", scope := some (IdScope.lit "n") }
    cells := [{ column := CellPart.lit "c", value := CellPart.lit "2", cut := false }]
    trunc := false
    cut := false
    meta := [] }

/-- The row `laterRowAst` builds: the single column `"c"` valued `"2"`. -/
def laterRow : MorkRow := insertD emptyD "c" "2"

/-- A Table item whose only body entry is the bare row identifier `"X"`,
in a state where no such row exists. -/
def orphanTableAst : TableAst :=
  { tableid := { objectid := "1", scope := some (IdScope.lit "ns") }
    rows := [TableItem.rowRef { objectid := "X", scope := none }]
    trunc := false
    meta := [] }

/-! ## Claim C1 -/

/-- Claim C1, counterexample: decoding the two-character input backslash,
`a` — a backslash followed by a single character that is not a recognized
escape — does not yield `a`; it fails (`_translateEscape` raises
`KeyError` on `_unescapeMap['\a']`), refuting "decoding never fails". -/
theorem C1_counterexample : unescapeStr "\\a" = none := by decide

/-- Claim C1 (amended): a backslash followed by a single character `c`
other than newline or carriage return decodes to `c` exactly when `c` is
one of `)`, backslash, `$`; for every other such `c` the decoder fails
(dictionary-miss `KeyError`) rather than passing `c` through. -/
theorem C1_backslash_escape (c : Char) (rest : List Char)
    (h1 : c ≠ '\n') (h2 : c ≠ '\r') :
    unescape ('\\' :: c :: rest) =
      if c = ')' ∨ c = '\\' ∨ c = '$' then (unescape rest).map (fun l => c :: l)
      else none := by
  have hstep : unescape ('\\' :: c :: rest) =
      (escMap c).bind (fun s => (unescape rest).map (fun l => s ++ l)) := by
    simp [unescape, h2]
  rw [hstep, escMap]
  by_cases hp : c = ')'
  · subst hp; simp
  · by_cases hb : c = '\\'
    · subst hb; simp
    · by_cases hd : c = '$'
      · subst hd; simp
      · simp [hp, hb, hd, h1]

/-- Claim C1, witness: the amended theorem at `c = ')'` (decodes to `)`)
and the hypothesis instances. -/
theorem C1_backslash_escape_witness :
    ((')' : Char) ≠ '\n') ∧ ((')' : Char) ≠ '\r') ∧ unescape ['\\', ')'] = some [')'] :=
  ⟨by decide, by decide,
    by simpa [unescape] using C1_backslash_escape ')' [] (by decide) (by decide)⟩

/-! ## Claim C2 -/

/-- Claim C2, counterexample: in namespace `"a"`, a first Dict item
defines alias `"28"` as `"zz"` and a second Dict item defines only alias
`"30"`; the claim says `"28"` keeps `"zz"`, but the build yields `"("` —
the second item's freshly seeded cells table re-overlays the bootstrap
identity value. -/
theorem C2_counterexample :
    ((MorkDict.fromAst ⟨[⟨"28", "zz", false⟩], []⟩ initState).bind
        (MorkDict.fromAst ⟨[⟨"30", "yy", false⟩], []⟩)).bind
        (fun st => (st.dicts "a").bind (fun d => d "28")) = some "(" ∧
      ("(" : String) ≠ "zz" :=
  ⟨by decide, by decide⟩

/-- Claim C2 (amended): a Dict item for an existing namespace overlays its
whole cells table — the freshly seeded identity table updated with the
item's decoded entries — onto the existing table.  Hence the later item
wins on every alias it defines, an alias outside the seed's key set keeps
the earlier value, but a seed-keyed alias not redefined by the later item
reverts to the seed value instead of keeping the earlier item's value. -/
theorem C2_dict_overlay (st : MorkState) (d : DictAst) (cells existing : MDict) (ns : String)
    (hc : dictCellsFun d = some cells) (hn : dictNamespaceOf d = some ns)
    (he : st.dicts ns = some existing) :
    MorkDict.fromAst d st =
      some { st with dicts := setDict st.dicts ns (overlayD existing cells) } := by
  unfold MorkDict.fromAst
  rw [hc, hn]
  simp [he]

/-- Claim C2, witness: the amended theorem at the second Dict item of the
counterexample over the pre-seeded namespace `"a"`. -/
theorem C2_dict_overlay_witness :
    dictCellsFun ⟨[⟨"30", "yy", false⟩], []⟩ = some (insertD seedDict "30" "yy") ∧
    dictNamespaceOf ⟨[⟨"30", "yy", false⟩], []⟩ = some "a" ∧
    initState.dicts "a" = some seedDict ∧
    MorkDict.fromAst ⟨[⟨"30", "yy", false⟩], []⟩ initState =
      some { initState with
             dicts := setDict initState.dicts "a" (overlayD seedDict (insertD seedDict "30" "yy")) } :=
  ⟨rfl, rfl, rfl,
    C2_dict_overlay initState ⟨[⟨"30", "yy", false⟩], []⟩ (insertD seedDict "30" "yy")
      seedDict "a" rfl rfl rfl⟩

/-! ## Claim C3 -/

/-- Claim C3, counterexample: in the pre-seeded state, looking alias
`"00"` up in namespace `"a"` fails — the seeding loop uses `'%X' % i`,
which produces `"0"`, not the zero-padded `"00"` the claim requires for
every two-hex-digit alias below `0x80`. -/
theorem C3_counterexample :
    (initState.dicts "a").bind (fun d => d "00") = none ∧
    (initState.dicts "a").bind (fun d => d "0") = some (String.mk [Char.ofNat 0]) :=
  ⟨by decide, by decide⟩

set_option maxRecDepth 10000 in
/-- Claim C3 (amended): before any user-supplied Dict item, namespaces
`"a"` and `"c"` both exist and map, for every code point `i` below
`0x80`, the alias `'%X' % i` — uppercase hex without zero padding, so
`"0"`..`"F"` then `"10"`..`"7F"` — to the one-character string of that
code point; in particular alias `"28"` maps to `"("`. -/
theorem C3_seed_identity : ∀ i < 0x80,
    (initState.dicts "a").bind (fun d => d (natToHexUp i)) = some (String.mk [Char.ofNat i]) ∧
    (initState.dicts "c").bind (fun d => d (natToHexUp i)) = some (String.mk [Char.ofNat i]) := by
  decide

/-- Claim C3, witness: the amended theorem at `i = 0x28`, whose alias is
`"28"` and whose character is `"("`. -/
theorem C3_seed_identity_witness :
    (0x28 < 0x80) ∧ (natToHexUp 0x28 = "28") ∧ (String.mk [Char.ofNat 0x28] = "(") ∧
    (initState.dicts "a").bind (fun d => d (natToHexUp 0x28)) = some (String.mk [Char.ofNat 0x28]) :=
  ⟨by decide, by decide, by decide, (C3_seed_identity 0x28 (by decide)).1⟩

/-! ## Claim C4 -/

/-- Claim C4, counterexample: a cell with the literal column
backslash-close-paren and literal value `"x"` inflates to exactly that
raw column — the column is not escape-decoded (the claim's decode would
give `")"`); only the value side is decoded. -/
theorem C4_counterexample :
    inflateCell initState ⟨CellPart.lit "\\)", CellPart.lit "x", false⟩ = some ("\\)", "x") ∧
    ("\\)" : String) ≠ ")" :=
  ⟨by decide, by decide⟩

/-- Claim C4 (amended): cell resolution handles column and value
independently — a literal column is used verbatim (not escape-decoded), a
literal value is escape-decoded, a symbolic column is looked up with
default namespace `"c"`, and a symbolic value is looked up with default
namespace `"a"`; the result is the pair (column, decoded value). -/
theorem C4_inflate_cell (st : MorkState) (s t v : String) (b : Bool) (r q : MorkRef) :
    (unescapeStr t = some v →
      inflateCell st ⟨CellPart.lit s, CellPart.lit t, b⟩ = some (s, v)) ∧
    inflateCell st ⟨CellPart.ref r, CellPart.lit t, b⟩ =
      (dictDeref st r "c").bind (fun col => (unescapeStr t).map (fun w => (col, w))) ∧
    inflateCell st ⟨CellPart.lit s, CellPart.ref q, b⟩ =
      (dictDeref st q "a").map (fun w => (s, w)) ∧
    inflateCell st ⟨CellPart.ref r, CellPart.ref q, b⟩ =
      (dictDeref st r "c").bind (fun col => (dictDeref st q "a").map (fun w => (col, w))) := by
  refine ⟨fun h => ?_, rfl, rfl, rfl⟩
  simp [inflateCell, h]

/-- Claim C4, witness: the amended theorem's literal/literal clause at
column `"k"` and value `"$21"`, which decodes to `"!"`. -/
theorem C4_inflate_cell_witness :
    unescapeStr "$21" = some "!" ∧
    inflateCell initState ⟨CellPart.lit "k", CellPart.lit "$21", false⟩ = some ("k", "!") :=
  ⟨by decide,
    (C4_inflate_cell initState "k" "$21" "!" false ⟨"28", none⟩ ⟨"28", none⟩).1 (by decide)⟩

/-! ## Claim C5 -/

/-- Claim C5: an identifier whose scope is a symbolic reference resolves
its namespace by looking the reference's alias up in the dictionary
store, in namespace `"c"` when the reference carries no namespace of its
own, and the looked-up string becomes the identifier's namespace. -/
theorem C5_indirect_scope (st : MorkState) (raw : String) (r : MorkRef) (E : MDict) (v : String)
    (hns : st.dicts (r.scope.getD "c") = some E) (hv : E r.oid = some v) :
    dissectId st ⟨raw, some (IdScope.ref r)⟩ = some (raw, some v) := by
  simp [dissectId, dictDeref, hns, hv]

/-- Claim C5, witness: the spec scenario — a Row identifier with raw id
`"3"` and a scope referencing alias `"5"`, while dictionary `"c"` maps
`"5"` to `"history"`, resolves to namespace `"history"`. -/
theorem C5_indirect_scope_witness :
    historyState.dicts "c" = some (insertD seedDict "5" "history") ∧
    insertD seedDict "5" "history" "5" = some "history" ∧
    dissectId historyState ⟨"3", some (IdScope.ref ⟨"5", none⟩)⟩ = some ("3", some "history") :=
  ⟨rfl, by decide,
    C5_indirect_scope historyState "3" ⟨"5", none⟩ (insertD seedDict "5" "history")
      "history" rfl (by decide)⟩

/-! ## Claim C6 -/

/-- The table-row loop splits over list append: process the first chunk,
then the second from the resulting accumulator and state. -/
theorem tableRowsOf_append (ns : String) (xs ys : List TableItem) (acc : List MorkRow)
    (st : MorkState) :
    tableRowsOf ns (xs ++ ys) acc st =
      (tableRowsOf ns xs acc st).bind (fun q => tableRowsOf ns ys q.1 q.2) := by
  induction xs generalizing acc st with
  | nil => simp [tableRowsOf]
  | cons x rest ih =>
    cases x with
    | rowRef i =>
      cases h : dissectId st i with
      | none => simp [tableRowsOf, h]
      | some p =>
        cases h2 : st.rows (p.2.getD ns, p.1) with
        | none => simp [tableRowsOf, h, h2]
        | some row => simp [tableRowsOf, h, h2, ih]
    | rowNode r =>
      cases h : MorkRow.fromAst r st (some ns) with
      | none => simp [tableRowsOf, h]
      | some q => simp [tableRowsOf, h, ih]

/-- Claim C6: when a Table item contains a bare row identifier whose
resolved key (namespace defaulting to the table's) is absent from the row
store at that point of processing, the table build fails instead of
producing a table, and the failure aborts the whole build. -/
theorem C6_missing_row (st st2 : MorkState) (t : TableAst) (oid ns rid : String)
    (rns : Option String) (i : MorkId) (done rest : List TableItem) (acc : List MorkRow)
    (hid : dissectId st t.tableid = some (oid, some ns))
    (hrows : t.rows = done ++ TableItem.rowRef i :: rest)
    (hdone : tableRowsOf ns done [] st = some (acc, st2))
    (hrid : dissectId st2 i = some (rid, rns))
    (hmiss : st2.rows (rns.getD ns, rid) = none) :
    MorkTable.fromAst t st = none ∧
    ∀ restItems : List Item, buildItems (Item.table t :: restItems) st = none := by
  have hfail : MorkTable.fromAst t st = none := by
    unfold MorkTable.fromAst
    rw [hid, hrows]
    simp only [Option.some_bind]
    rw [tableRowsOf_append, hdone]
    simp [tableRowsOf, hrid, hmiss]
  exact ⟨hfail, fun restItems => by simp [buildItems, processItem, hfail]⟩

/-- Claim C6, witness: the spec's ordering-failure scenario — a Table item
listing only the bare row identifier `"X"` before any item defines it. -/
theorem C6_missing_row_witness :
    initState.rows ("ns", "X") = none ∧
    MorkTable.fromAst orphanTableAst initState = none ∧
    buildItems [Item.table orphanTableAst] initState = none :=
  ⟨rfl,
    (C6_missing_row initState initState orphanTableAst "1" "ns" "X" none ⟨"X", none⟩ [] [] []
      rfl rfl rfl rfl rfl).1,
    (C6_missing_row initState initState orphanTableAst "1" "ns" "X" none ⟨"X", none⟩ [] [] []
      rfl rfl rfl rfl rfl).2 []⟩

/-! ## Claim C7 -/

/-- Claim C7: processing a Row item stores, at its resolved
`(namespace, id)` key, exactly the row built from that item's cells alone
(starting from the empty row) — the store slot is overwritten wholesale,
so whatever row the state held at that key before is fully replaced and
none of its columns survive unless the item redefines them. -/
theorem C7_row_replace (st : MorkState) (r : RowAst) (row2 : MorkRow) (oid ns : String)
    (hcells : rowCellsOf st r.cells emptyD = some row2)
    (hid : dissectId st r.rowid = some (oid, some ns)) :
    MorkRow.fromAst r st none =
      some (row2, { st with rows := storeSet st.rows (ns, oid) row2 }) ∧
    storeSet st.rows (ns, oid) row2 (ns, oid) = some row2 := by
  constructor
  · unfold MorkRow.fromAst
    rw [hcells, hid]
    simp [Option.orElse]
  · simp [storeSet]

/-- Claim C7, witness: over a state already holding a row with column
`"b"` at `("n", "1")`, the later Row item for the same key stores only its
own column `"c"`, and column `"b"` is gone from the stored row. -/
theorem C7_row_replace_witness :
    prevRowState.rows ("n", "1") = some prevRow ∧
    rowCellsOf prevRowState laterRowAst.cells emptyD = some laterRow ∧
    MorkRow.fromAst laterRowAst prevRowState none =
      some (laterRow, { prevRowState with rows := storeSet prevRowState.rows ("n", "1") laterRow }) ∧
    laterRow "b" = none ∧ prevRow "b" = some "1" :=
  ⟨rfl, rfl,
    (C7_row_replace prevRowState laterRowAst laterRow "1" "n" rfl rfl).1,
    by decide, by decide⟩

/-! ## Claim C8 -/

/-- Claim C8: a `$` that is not followed by exactly two hexadecimal
digits — including a `$` at or near the end of the input — is emitted
unchanged, and decoding continues right after it; only the
three-character `$` + two-hex-digits form is replaced (by the byte of
that value, per `unescape`'s first branch). -/
theorem C8_lone_dollar (rest : List Char)
    (h : ∀ a b rest2, rest = a :: b :: rest2 → (isHexD a && isHexD b) = false) :
    unescape ('$' :: rest) = (unescape rest).map (fun l => '$' :: l) := by
  match rest with
  | [] => simp [unescape]
  | [a] => simp [unescape]
  | a :: b :: rest2 =>
    have hab := h a b rest2 rfl
    simp [unescape, hab]

/-- Claim C8, witness: the theorem at `"$1g"` (the `g` is not a hex
digit), whose decode keeps the `$` and the following characters. -/
theorem C8_lone_dollar_witness :
    ((isHexD '1' && isHexD 'g') = false) ∧
    unescape ['$', '1', 'g'] = (unescape ['1', 'g']).map (fun l => '$' :: l) ∧
    unescape ['$', '1', 'g'] = some ['$', '1', 'g'] :=
  ⟨by decide,
    C8_lone_dollar ['1', 'g']
      (by
        intro a b r2 h
        injection h with h1 h2
        injection h2 with h3 h4
        subst h1
        subst h3
        decide),
    by decide⟩

/-! ## Claim C9 -/

/-- The dictionary builder touches neither object store. -/
theorem dictFromAst_frame (d : DictAst) (st st' : MorkState)
    (h : MorkDict.fromAst d st = some st') : st'.rows = st.rows ∧ st'.tables = st.tables := by
  unfold MorkDict.fromAst at h
  rw [Option.bind_eq_some] at h
  obtain ⟨cells, hc, h⟩ := h
  rw [Option.map_eq_some'] at h
  obtain ⟨ns, hn, h⟩ := h
  cases he : st.dicts ns with
  | none => rw [he] at h; subst h; exact ⟨rfl, rfl⟩
  | some existing => rw [he] at h; subst h; exact ⟨rfl, rfl⟩

/-- The row builder touches neither the dictionary store nor the table
store. -/
theorem rowFromAst_frame (r : RowAst) (st : MorkState) (dflt : Option String)
    (q : MorkRow × MorkState) (h : MorkRow.fromAst r st dflt = some q) :
    q.2.dicts = st.dicts ∧ q.2.tables = st.tables := by
  unfold MorkRow.fromAst at h
  rw [Option.bind_eq_some] at h
  obtain ⟨row, hrow, h⟩ := h
  rw [Option.bind_eq_some] at h
  obtain ⟨p, hp, h⟩ := h
  rw [Option.map_eq_some'] at h
  obtain ⟨ns, hns, h⟩ := h
  subst h
  exact ⟨rfl, rfl⟩

/-- The table-row loop touches only the row store. -/
theorem tableRowsOf_frame (ns : String) (items : List TableItem) (acc : List MorkRow)
    (st : MorkState) (q : List MorkRow × MorkState) (h : tableRowsOf ns items acc st = some q) :
    q.2.dicts = st.dicts ∧ q.2.tables = st.tables := by
  induction items generalizing acc st with
  | nil =>
    simp only [tableRowsOf, Option.some.injEq] at h
    subst h
    exact ⟨rfl, rfl⟩
  | cons x rest ih =>
    cases x with
    | rowRef i =>
      simp only [tableRowsOf] at h
      rw [Option.bind_eq_some] at h
      obtain ⟨p, hp, h⟩ := h
      rw [Option.bind_eq_some] at h
      obtain ⟨row, hr, h⟩ := h
      exact ih _ _ h
    | rowNode r =>
      simp only [tableRowsOf] at h
      rw [Option.bind_eq_some] at h
      obtain ⟨q1, hq1, h⟩ := h
      have h2 := rowFromAst_frame r st (some ns) q1 hq1
      have h3 := ih _ _ h
      exact ⟨h3.1.trans h2.1, h3.2.trans h2.2⟩

/-- The table builder leaves the dictionary store unchanged. -/
theorem tableFromAst_frame (t : TableAst) (st st' : MorkState)
    (h : MorkTable.fromAst t st = some st') : st'.dicts = st.dicts := by
  unfold MorkTable.fromAst at h
  rw [Option.bind_eq_some] at h
  obtain ⟨p, hp, h⟩ := h
  rw [Option.bind_eq_some] at h
  obtain ⟨ns, hns, h⟩ := h
  rw [Option.map_eq_some'] at h
  obtain ⟨q, hq, h⟩ := h
  have hframe := tableRowsOf_frame ns t.rows [] st q hq
  subst h
  exact hframe.1

/-- Claim C9: processing a Dict item leaves the row and table stores
unchanged; processing a Row item (under any default namespace, so also
inline inside a table) leaves the dictionary and table stores unchanged;
and processing a Table item leaves the dictionary store unchanged — each
builder writes only into its own store, plus, for the table builder, the
row store.  A failed build step (`none`) leaves the whole state
unchanged, covered by the `getD` fallback. -/
theorem C9_builder_frames (d : DictAst) (r : RowAst) (t : TableAst) (dflt : Option String)
    (st : MorkState) :
    ((MorkDict.fromAst d st).getD st).rows = st.rows ∧
    ((MorkDict.fromAst d st).getD st).tables = st.tables ∧
    (((MorkRow.fromAst r st dflt).map Prod.snd).getD st).dicts = st.dicts ∧
    (((MorkRow.fromAst r st dflt).map Prod.snd).getD st).tables = st.tables ∧
    ((MorkTable.fromAst t st).getD st).dicts = st.dicts := by
  refine ⟨?_, ?_, ?_, ?_, ?_⟩
  · cases hd : MorkDict.fromAst d st with
    | none => rfl
    | some st' => simpa using (dictFromAst_frame d st st' hd).1
  · cases hd : MorkDict.fromAst d st with
    | none => rfl
    | some st' => simpa using (dictFromAst_frame d st st' hd).2
  · cases hr : MorkRow.fromAst r st dflt with
    | none => rfl
    | some q => simpa using (rowFromAst_frame r st dflt q hr).1
  · cases hr : MorkRow.fromAst r st dflt with
    | none => rfl
    | some q => simpa using (rowFromAst_frame r st dflt q hr).2
  · cases ht : MorkTable.fromAst t st with
    | none => rfl
    | some st' => simpa using tableFromAst_frame t st st' ht

/-! ## Claim C10 -/

/-- Claim C10: for a hexadecimal field value parsing to `n`, the signed
32-bit converter renders `n` in decimal when `n ≤ 0x7fffffff`, renders
`n - 2^32` in decimal when `0x7fffffff < n ≤ 0xffffffff`
(two's-complement reinterpretation), and fails (assertion) when
`n > 0xffffffff`. -/
theorem C10_signed_int32 (v : String) (n : Nat) (hp : parseHexStr v = some n) :
    (n ≤ 0x7fffffff → signedInt32Convert false v = some (toString (n : Int))) ∧
    (0x7fffffff < n → n ≤ 0xffffffff →
      signedInt32Convert false v = some (toString ((n : Int) - 0x100000000))) ∧
    (0xffffffff < n → signedInt32Convert false v = none) := by
  have hbase : signedInt32Convert false v =
      (parseHexStr v).bind (fun ival =>
        if ival ≤ 0xffffffff then
          some (toString (if 0x7fffffff < ival then (ival : Int) - 0x100000000 else (ival : Int)))
        else none) := by
    simp [signedInt32Convert]
  rw [hbase, hp]
  refine ⟨fun h1 => ?_, fun h1 h2 => ?_, fun h1 => ?_⟩
  · simp only [Option.some_bind]
    rw [if_pos (by omega), if_neg (by omega)]
  · simp only [Option.some_bind]
    rw [if_pos h2, if_pos h1]
  · simp only [Option.some_bind]
    rw [if_neg (by omega)]

/-- Claim C10, witness: the three regimes at `"7fffffff"` (positive),
`"ffffffff"` (wraps to `-1`) and `"100000000"` (too large, fails). -/
theorem C10_signed_int32_witness :
    parseHexStr "ffffffff" = some 4294967295 ∧
    signedInt32Convert false "ffffffff" = some "-1" ∧
    signedInt32Convert false "7fffffff" = some "2147483647" ∧
    signedInt32Convert false "100000000" = none :=
  ⟨by decide,
    by
      rw [(C10_signed_int32 "ffffffff" 4294967295 (by decide)).2.1 (by decide) (by decide)]
      decide,
    by
      rw [(C10_signed_int32 "7fffffff" 2147483647 (by decide)).1 (by decide)]
      decide,
    (C10_signed_int32 "100000000" 4294967296 (by decide)).2.2 (by decide)⟩

end Mork
